import Mathlib

/-!
Verification of the devforecast application logic.

This file gives a shallow embedding, in Lean 4, of the cache, normalization
and aggregation logic of the devforecast Next.js application, translated
from its TypeScript sources:

* the client-side cache `ClientCache` and `generateCacheKey`
  (`src/lib/client-cache.ts`),
* the combined weather route handler with its in-memory server cache and
  the forecast bucketing pipeline (`processForecastList`,
  `getMostFrequentIcon`),
* the GitHub repository mappings of the details, trending and search
  routes, the beginner-friendly / repository issues helpers, and the
  AI-insight POST handler's mode selection,
* the localStorage helpers for bookmarks and view history
  (`src/lib/github-utils.ts`).

JavaScript numbers are modelled as rationals (`ℚ`), machine timestamps as
`ℤ` milliseconds or seconds as in the source, JS `null` / `undefined`
distinctions with dedicated inductive types where a claim depends on them,
and in-memory caches as functions `String → Option entry`.  Handlers are
total functions that also report which upstream HTTP calls they perform.
-/

namespace DevForecast

/-! ## Client-side cache (`src/lib/client-cache.ts`) -/

/-- An entry of the client cache: `{ data, timestamp, expiryTime }`. -/
structure ClientCacheEntry (α : Type) where
  data : α
  timestamp : Int
  expiryTime : Int

/-- The client cache store (`ClientCache.cacheStore`), a map from keys to
entries; `none` models an absent key. -/
def ClientStore (α : Type) : Type := String → Option (ClientCacheEntry α)

/-- `CACHE_DURATIONS.WEATHER` (10 minutes, in milliseconds). -/
def CACHE_DURATIONS_WEATHER : Int := 10 * 60 * 1000

/-- `CACHE_DURATIONS.GITHUB` (30 minutes, in milliseconds). -/
def CACHE_DURATIONS_GITHUB : Int := 30 * 60 * 1000

/-- `CACHE_DURATIONS.AI_INSIGHT` (1 hour, in milliseconds). -/
def CACHE_DURATIONS_AI_INSIGHT : Int := 60 * 60 * 1000

/-- `CACHE_DURATIONS.DEFAULT` (15 minutes, in milliseconds). -/
def CACHE_DURATIONS_DEFAULT : Int := 15 * 60 * 1000

namespace ClientCache

/-- `ClientCache.cleanExpiredEntries`: deletes every entry whose
`expiryTime < now` (`Date.now()` at the time of the sweep). -/
def cleanExpiredEntries {α : Type} (store : ClientStore α) (now : Int) :
    ClientStore α :=
  fun key =>
    match store key with
    | some e => if e.expiryTime < now then none else some e
    | none => none

/-- `ClientCache.set`: stores `{ data, timestamp := now,
expiryTime := now + duration }` under `key`. -/
def set {α : Type} (store : ClientStore α) (key : String) (data : α)
    (duration : Int) (now : Int) : ClientStore α :=
  fun k =>
    if k = key then some ⟨data, now, now + duration⟩ else store k

/-- `ClientCache.get`: sweeps expired entries, then returns the entry's
`data` if the key is still present (`null` otherwise). -/
def get {α : Type} (store : ClientStore α) (key : String) (now : Int) :
    Option α :=
  match cleanExpiredEntries store now key with
  | some e => some e.data
  | none => none

/-- `ClientCache.has`: a key is present and not expired iff its entry
satisfies `expiryTime > Date.now()` (no sweep is performed). -/
def has {α : Type} (store : ClientStore α) (key : String) (now : Int) :
    Bool :=
  match store key with
  | some e => e.expiryTime > now
  | none => false

end ClientCache

/-- The freshness test shared by the server-side in-memory caches
(weather, GitHub, search, issues routes):
`(now - entry.timestamp) < CACHE_DURATION`. -/
def serverEntryFresh (timestamp ttl now : Int) : Bool :=
  now - timestamp < ttl

/-! ## Cache keys (`generateCacheKey`, `src/lib/client-cache.ts`) -/

/-- Code-unit lexicographic string comparison, as used by JavaScript's
default `Array.prototype.sort` on `Object.keys`, on underlying character
lists. -/
def charListLe : List Char → List Char → Bool
  | [], _ => true
  | _ :: _, [] => false
  | a :: as, b :: bs =>
    if a.toNat < b.toNat then true
    else if b.toNat < a.toNat then false
    else charListLe as bs

/-- The sort order on `(key, value)` pairs induced by `charListLe` on the
keys. -/
def keyLe (a b : String × String) : Prop :=
  charListLe a.1.data b.1.data = true

instance : DecidableRel keyLe :=
  fun a b => Bool.decEq (charListLe a.1.data b.1.data) true

/-- `Array.prototype.join(sep)`. -/
def joinParts (sep : String) : List String → String
  | [] => ""
  | [p] => p
  | p :: ps => p ++ sep ++ joinParts sep ps

/-- `generateCacheKey(endpoint, params)`: parameters are `(key,
String(value))` pairs (JavaScript object keys are unique; values are
stringified by the source before serialization).  Keys are sorted,
serialized as `key=value` joined by `&`, and appended to the endpoint
after `?` when the serialization is nonempty. -/
def generateCacheKey (endpoint : String)
    (params : List (String × String)) : String :=
  let sortedParams :=
    joinParts "&" ((params.insertionSort keyLe).map
      (fun p => p.1 ++ "=" ++ p.2))
  endpoint ++ (if sortedParams = "" then "" else "?" ++ sortedParams)

/-- The strict version of `keyLe`: the keys also differ.  Used to compare
sorted parameter lists with distinct keys. -/
def keyLt (a b : String × String) : Prop :=
  keyLe a b ∧ a.1 ≠ b.1

/-- The serialization `key=value` of one parameter, at the level of
character lists. -/
def pairChunk (q : String × String) : List Char :=
  q.1.data ++ '=' :: q.2.data

/-- `join('&')` at the level of character lists. -/
def joinAmpData : List (List Char) → List Char
  | [] => []
  | [x] => x
  | x :: xs => x ++ '&' :: joinAmpData xs

/-! ## Combined weather route (current + 5-day forecast handler) -/

/-- One element of a `weather` array in OpenWeatherMap payloads. -/
structure WeatherCond where
  id : Int
  main : String
  description : String
  icon : String
deriving DecidableEq

/-- The `main` block of a 3-hour forecast item. -/
structure ForecastMain where
  temp : ℚ
  temp_min : ℚ
  temp_max : ℚ
  feels_like : ℚ
  humidity : ℚ
  pressure : ℚ
deriving DecidableEq

/-- A `wind` block. -/
structure WindInfo where
  speed : ℚ
  deg : ℚ
  gust : Option ℚ
deriving DecidableEq

/-- `ThreeHourForecastItem`: one raw 3-hour forecast sample.  `clouds`
holds `clouds.all`; `rain`/`snow` hold the optional `['3h']` amounts. -/
structure ThreeHourForecastItem where
  dt : Int
  main : ForecastMain
  weather : List WeatherCond
  clouds : ℚ
  wind : WindInfo
  pop : ℚ
  dt_txt : String
  rain : Option ℚ
  snow : Option ℚ
deriving DecidableEq

/-- The `city` block of the OWM `/forecast` response; `lat`/`lon` inline
the `coord` object. -/
structure ForecastCity where
  id : Int
  name : String
  lat : ℚ
  lon : ℚ
  country : String
  population : Int
  timezone : Int
  sunrise : Int
  sunset : Int
deriving DecidableEq

/-- `RawForecastResponse` of the OWM `/forecast` endpoint. -/
structure RawForecastResponse where
  cod : String
  message : Int
  cnt : Int
  list : List ThreeHourForecastItem
  city : ForecastCity
deriving DecidableEq

/-- A `coord` block. -/
structure Coord where
  lon : ℚ
  lat : ℚ
deriving DecidableEq

/-- The `main` block of the OWM `/weather` (current weather) response. -/
structure CurrentMain where
  temp : ℚ
  feels_like : ℚ
  temp_min : ℚ
  temp_max : ℚ
  pressure : ℚ
  humidity : ℚ
  sea_level : Option ℚ
  grnd_level : Option ℚ
deriving DecidableEq

/-- The `sys` block of the current weather response. -/
structure SysInfo where
  type : Option Int
  id : Option Int
  country : String
  sunrise : Int
  sunset : Int
deriving DecidableEq

/-- `CurrentWeatherData` of the OWM `/weather` endpoint; `coord` is an
`Option` because the handler guards its access with `?.`.  `clouds` holds
`clouds.all`; `rain`/`snow` the optional `['1h']` amounts. -/
structure CurrentWeatherData where
  coord : Option Coord
  weather : List WeatherCond
  base : String
  main : CurrentMain
  visibility : ℚ
  wind : WindInfo
  rain : Option ℚ
  snow : Option ℚ
  clouds : ℚ
  dt : Int
  sys : SysInfo
  timezone : Int
  id : Int
  name : String
  cod : Int
deriving DecidableEq

/-- The `temp` block of a processed daily summary. -/
structure DailyTemp where
  min : ℚ
  max : ℚ
  day : ℚ
  night : ℚ
  eve : ℚ
  morn : ℚ
deriving DecidableEq

/-- `DailyForecastData`, restricted to the fields `processForecastList`
actually fills (the remaining optional fields of the interface stay
undefined there). -/
structure DailyForecastData where
  dt : Int
  temp : DailyTemp
  weather : List WeatherCond
  pop : ℚ
  summary : String
  pressure : ℚ
  humidity : ℚ
  wind_speed : ℚ
  wind_deg : ℚ
  clouds : ℚ
deriving DecidableEq

/-- The per-day accumulator of `processForecastList`
(`{ temps, weatherIcons, pops, dt }`). -/
structure BucketData where
  temps : List ℚ
  weatherIcons : List String
  pops : List ℚ
  dt : Int
deriving DecidableEq

/-- The grouping key of a sample: the UTC calendar date of
`(dt + timezoneOffset) * 1000` milliseconds.  The `YYYY-MM-DD` string the
source builds from `getUTCFullYear/Month/Date` is in bijection with the
day number `⌊(dt + timezoneOffset) / 86400⌋`, used here as the key. -/
def dateKeyOf (timezoneOffset dt : Int) : Int :=
  (dt + timezoneOffset).fdiv 86400

/-- `date.getUTCHours()` for the date `(dt + timezoneOffset) * 1000`. -/
def utcHourOf (timezoneOffset dt : Int) : Int :=
  ((dt + timezoneOffset).emod 86400).ediv 3600

/-- `item.weather[0]`.  The source would throw on an empty `weather`
array; theorems about buckets therefore assume nonempty `weather` lists,
and the default is never relied upon. -/
def weatherHead (item : ThreeHourForecastItem) : WeatherCond :=
  item.weather.headD ⟨800, "Clear", "clear sky", "01d"⟩

/-- Creation of a day bucket: `dailyData[dateKey] = { temps: [],
weatherIcons: [], pops: [], dt: 0 }` followed by the noon / first-entry
timestamp rule, both executed only when the key is new. -/
def bucketInit (timezoneOffset : Int) (item : ThreeHourForecastItem) :
    BucketData :=
  let hour := utcHourOf timezoneOffset item.dt
  let b : BucketData := ⟨[], [], [], 0⟩
  if 11 ≤ hour ∧ hour ≤ 13 then { b with dt := item.dt }
  else if b.dt = 0 then { b with dt := item.dt }
  else b

/-- The three `push` calls executed for every sample of a bucket. -/
def bucketPush (item : ThreeHourForecastItem) (b : BucketData) :
    BucketData :=
  { b with
    temps := b.temps ++ [item.main.temp],
    weatherIcons := b.weatherIcons ++ [(weatherHead item).icon],
    pops := b.pops ++ [item.pop] }

/-- JS object property lookup on the insertion-ordered `dailyData`. -/
def lookupBucket (key : Int) :
    List (Int × BucketData) → Option BucketData
  | [] => none
  | (k, b) :: rest => if k = key then some b else lookupBucket key rest

/-- In-place update of an existing day bucket of `dailyData`. -/
def updateBucket (key : Int) (f : BucketData → BucketData) :
    List (Int × BucketData) → List (Int × BucketData)
  | [] => []
  | (k, b) :: rest =>
    if k = key then (k, f b) :: rest else (k, b) :: updateBucket key f rest

/-- One step of the `list.forEach` loop of `processForecastList`. -/
def bucketStep (timezoneOffset : Int) (acc : List (Int × BucketData))
    (item : ThreeHourForecastItem) : List (Int × BucketData) :=
  let key := dateKeyOf timezoneOffset item.dt
  match lookupBucket key acc with
  | some _ => updateBucket key (bucketPush item) acc
  | none =>
    acc ++ [(key, bucketPush item (bucketInit timezoneOffset item))]

/-- The `dailyData` record after the `forEach` loop, as an
insertion-ordered association list (JS objects preserve insertion order
for these non-index keys, and `Object.entries` reads them back in that
order). -/
def buildDaily (list : List ThreeHourForecastItem)
    (timezoneOffset : Int) : List (Int × BucketData) :=
  list.foldl (bucketStep timezoneOffset) []

/-- `icon.replace('n', 'd')` on the character list: JavaScript `replace`
with a string pattern replaces only the first occurrence. -/
def replaceFirstN : List Char → List Char
  | [] => []
  | c :: cs => if c = 'n' then 'd' :: cs else c :: replaceFirstN cs

/-- `icon.replace('n', 'd')`. -/
def replaceNWithD (s : String) : String :=
  ⟨replaceFirstN s.data⟩

/-- Lookup in the `frequency` object (`frequency[dayIcon] || 0`). -/
def freqGet : List (String × Nat) → String → Nat
  | [], _ => 0
  | (k', n) :: rest, k => if k' = k then n else freqGet rest k

/-- Assignment to the `frequency` object. -/
def freqSet : List (String × Nat) → String → Nat → List (String × Nat)
  | [], k, v => [(k, v)]
  | (k', n) :: rest, k, v =>
    if k' = k then (k', v) :: rest else (k', n) :: freqSet rest k v

/-- The running state of the `icons.forEach` loop of
`getMostFrequentIcon`. -/
structure IconFold where
  frequency : List (String × Nat)
  maxFreq : Nat
  mostFrequentIcon : String

/-- One step of the `icons.forEach` loop of `getMostFrequentIcon`. -/
def iconStep (st : IconFold) (icon : String) : IconFold :=
  let dayIcon := replaceNWithD icon
  let newCount := freqGet st.frequency dayIcon + 1
  let freq' := freqSet st.frequency dayIcon newCount
  if st.maxFreq < newCount then ⟨freq', newCount, dayIcon⟩
  else ⟨freq', st.maxFreq, st.mostFrequentIcon⟩

/-- `getMostFrequentIcon`: night icons folded to day (`replace('n','d')`),
then the first icon whose running count exceeds the running maximum wins;
`'01d'` for an empty list. -/
def getMostFrequentIcon (icons : List String) : String :=
  match icons with
  | [] => "01d"
  | first :: _ => (icons.foldl iconStep ⟨[], 0, first⟩).mostFrequentIcon

/-- Specification side (C6): the occurrence count of a most frequent
element of `l`. -/
def maxIconCount (l : List String) : Nat :=
  (l.map fun c => l.count c).foldr max 0

/-- Specification side (C6): scan left to right and return the first
element whose running occurrence count reaches `M`. -/
def findAttain (M : Nat) : List String → List String → Option String
  | _, [] => none
  | seen, c :: rest =>
    if (seen ++ [c]).count c = M then some c
    else findAttain M (seen ++ [c]) rest

/-- Specification side (C6): the most frequent element, ties broken in
favour of the element that first attains the maximum count. -/
def firstMaxAttainer (l : List String) : String :=
  (findAttain (maxIconCount l) [] l).getD "01d"

/-- `Math.min(...temps)` (buckets are nonempty, so the `[]` default is
never hit). -/
def listMinQ : List ℚ → ℚ
  | [] => 0
  | t :: ts => ts.foldl min t

/-- `Math.max(...temps)`. -/
def listMaxQ : List ℚ → ℚ
  | [] => 0
  | t :: ts => ts.foldl max t

/-- `x || d` on a JS number: `0` is falsy and replaced by the default. -/
def numOr (x d : ℚ) : ℚ :=
  if x = 0 then d else x

/-- The per-day reduction of `processForecastList` (the body of the
`Object.entries(dailyData).map` callback). -/
def dailyEntryOf (list : List ThreeHourForecastItem) (data : BucketData) :
    DailyForecastData :=
  let minTemp := listMinQ data.temps
  let maxTemp := listMaxQ data.temps
  let avgPop := (data.pops.foldl (· + ·) 0) / (data.pops.length : ℚ)
  let mostFrequentIcon := getMostFrequentIcon data.weatherIcons
  let representativeWeather :=
    match list.find? (fun (item : ThreeHourForecastItem) =>
        replaceNWithD (weatherHead item).icon = mostFrequentIcon) with
    | some it => weatherHead it
    | none =>
      match list.find? (fun (item : ThreeHourForecastItem) =>
          item.dt = data.dt) with
      | some it => weatherHead it
      | none => ⟨800, "Clear", "clear sky", mostFrequentIcon⟩
  let atDt := list.find? (fun (item : ThreeHourForecastItem) =>
    item.dt = data.dt)
  { dt := data.dt,
    temp := ⟨minTemp, maxTemp, (minTemp + maxTemp) / 2, minTemp, maxTemp,
      minTemp⟩,
    weather := [⟨representativeWeather.id, representativeWeather.main,
      representativeWeather.description, mostFrequentIcon⟩],
    pop := avgPop,
    summary := representativeWeather.description,
    pressure := numOr (match atDt with
      | some it => it.main.pressure
      | none => 0) 1015,
    humidity := numOr (match atDt with
      | some it => it.main.humidity
      | none => 0) 60,
    wind_speed := numOr (match atDt with
      | some it => it.wind.speed
      | none => 0) 0,
    wind_deg := numOr (match atDt with
      | some it => it.wind.deg
      | none => 0) 0,
    clouds := numOr (match atDt with
      | some it => it.clouds
      | none => 0) 0 }

/-- The `.sort((a, b) => a.dt - b.dt)` comparator as an order. -/
def dailyDtLe (a b : DailyForecastData) : Prop :=
  a.dt ≤ b.dt

instance : DecidableRel dailyDtLe :=
  fun a b => Int.decLe a.dt b.dt

/-- `processForecastList`: bucket the 3-hour samples by local calendar
day, reduce each bucket, sort by timestamp and keep the first 6 days. -/
def processForecastList (list : List ThreeHourForecastItem)
    (timezoneOffset : Int) : List DailyForecastData :=
  (((buildDaily list timezoneOffset).map
      (fun kb => dailyEntryOf list kb.2)).insertionSort dailyDtLe).take 6

/-- The processed `forecast` part of the combined payload. -/
structure CombinedForecast where
  daily : List DailyForecastData
  timezone_offset : Int
deriving DecidableEq

/-- `CombinedWeatherData`. -/
structure CombinedWeatherData where
  current : CurrentWeatherData
  forecast : CombinedForecast
deriving DecidableEq

/-- The `combinedData` value built on the success path: current weather
plus the processed daily summaries re-sliced to at most 7 entries, with
the forecast city's timezone offset. -/
def mkCombined (cw : CurrentWeatherData) (raw : RawForecastResponse) :
    CombinedWeatherData :=
  ⟨cw, ⟨(processForecastList raw.list raw.city.timezone).take 7,
    raw.city.timezone⟩⟩

/-- An entry of the weather route's in-memory cache. -/
structure WeatherCacheEntry where
  data : CombinedWeatherData
  timestamp : Int

/-- The weather route's in-memory cache (`weatherCache`). -/
def WeatherCacheStore : Type := String → Option WeatherCacheEntry

/-- The weather route's `CACHE_DURATION` (10 minutes, milliseconds). -/
def WEATHER_CACHE_DURATION : Int := 10 * 60 * 1000

/-- The upstream HTTP calls the weather handler can perform. -/
inductive UpstreamCall
  | currentWeather
  | forecastFetch
deriving DecidableEq

/-- Result of one upstream `axios.get` with `validateStatus < 500`: a 200
payload of the expected shape, a non-200 response body, or a network
error (no response at all). -/
inductive FetchResult (α : Type)
  | success (data : α)
  | httpError (status : Nat) (body : String)
  | networkError (msg : String)
deriving DecidableEq

/-- The upstream environment of one request: what the two OpenWeatherMap
endpoints would answer.  (Whether the forecast URL uses coordinates or
the city name only changes the URL, not which endpoint is consulted.) -/
structure WeatherUpstream where
  current : FetchResult CurrentWeatherData
  forecastResp : FetchResult RawForecastResponse
deriving DecidableEq

/-- The environment variables the weather handler reads. -/
structure WeatherEnv where
  apiKey : Option String
deriving DecidableEq

/-- The JSON responses of the weather handler. -/
inductive WeatherResponse
  | jsonCombined (status : Nat) (d : CombinedWeatherData)
  | jsonError (status : Nat) (error : String) (details : Option String)
  | jsonPassthrough (status : Nat) (body : String)
deriving DecidableEq

/-- `searchParams.get('units') || 'metric'`. -/
def resolveUnits : Option String → String
  | none => "metric"
  | some u => if u = "" then "metric" else u

/-- The server cache key `` `${city}-${units}` ``. -/
def weatherCacheKey (city units : String) : String :=
  city ++ "-" ++ units

/-- The fetch-and-combine path of the weather handler (API-key check,
steps 1 and 2, and the cache write), entered on a cache miss.  A non-200
upstream status below 500 is passed through; a 5xx makes axios reject and
reach the outer catch, which answers with that status. -/
def weatherFetch (cacheKey : String) (env : WeatherEnv)
    (cache : WeatherCacheStore) (now : Int)
    (upstream : WeatherUpstream) :
    WeatherResponse × WeatherCacheStore × List UpstreamCall :=
  match env.apiKey with
  | none =>
    (.jsonError 500 "OpenWeatherMap API key is not configured"
      (some "Please set a valid API key in your .env.local file"),
      cache, [])
  | some key =>
    if key = "" ∨ key = "your_openweathermap_api_key" then
      (.jsonError 500 "OpenWeatherMap API key is not configured"
        (some "Please set a valid API key in your .env.local file"),
        cache, [])
    else
      match upstream.current with
      | .networkError msg =>
        (.jsonError 503 "Network error fetching current weather"
          (some msg), cache, [.currentWeather])
      | .httpError status body =>
        if status < 500 then
          (.jsonPassthrough status body, cache, [.currentWeather])
        else
          (.jsonError status "Failed to process weather request"
            (some body), cache, [.currentWeather])
      | .success cw =>
        match upstream.forecastResp with
        | .networkError msg =>
          (.jsonError 503 "Network error fetching forecast data"
            (some msg), cache, [.currentWeather, .forecastFetch])
        | .httpError status body =>
          if status < 500 then
            (.jsonPassthrough status body, cache,
              [.currentWeather, .forecastFetch])
          else
            (.jsonError status "Failed to process weather request"
              (some body), cache, [.currentWeather, .forecastFetch])
        | .success raw =>
          let combinedData := mkCombined cw raw
          (.jsonCombined 200 combinedData,
            fun k =>
              if k = cacheKey then some ⟨combinedData, now⟩ else cache k,
            [.currentWeather, .forecastFetch])

/-- The `GET` handler of the combined weather route: missing/empty city
is a 400; then the cache is consulted (before any environment check), and
only on a miss is the fetch path entered. -/
def weatherGET (city unitsParam : Option String) (env : WeatherEnv)
    (cache : WeatherCacheStore) (now : Int)
    (upstream : WeatherUpstream) :
    WeatherResponse × WeatherCacheStore × List UpstreamCall :=
  match city with
  | none => (.jsonError 400 "City parameter is required" none, cache, [])
  | some c =>
    if c = "" then
      (.jsonError 400 "City parameter is required" none, cache, [])
    else
      let units := resolveUnits unitsParam
      let cacheKey := weatherCacheKey c units
      match cache cacheKey with
      | some entry =>
        if serverEntryFresh entry.timestamp WEATHER_CACHE_DURATION now then
          (.jsonCombined 200 entry.data, cache, [])
        else weatherFetch cacheKey env cache now upstream
      | none => weatherFetch cacheKey env cache now upstream

/-- The day-timestamp rule exactly as claim C5 states it: whenever a
bucket contains a sample with local hour in `[11, 13]`, the bucket's
recorded `dt` is the timestamp of such a sample. -/
def noonClaim (list : List ThreeHourForecastItem) (off : Int) : Prop :=
  ∀ kb ∈ buildDaily list off,
    (∃ it ∈ list, dateKeyOf off it.dt = kb.1 ∧
      11 ≤ utcHourOf off it.dt ∧ utcHourOf off it.dt ≤ 13) →
    ∃ it ∈ list, dateKeyOf off it.dt = kb.1 ∧
      11 ≤ utcHourOf off it.dt ∧ utcHourOf off it.dt ≤ 13 ∧
      kb.2.dt = it.dt

/-- A 3-hour sample dated 09:00 UTC on day 0 (timestamp 32400). -/
def sampleAt9 : ThreeHourForecastItem :=
  ⟨32400, ⟨10, 10, 10, 10, 50, 1000⟩, [⟨800, "Clear", "clear sky", "01d"⟩],
    0, ⟨0, 0, none⟩, 0, "", none, none⟩

/-- A 3-hour sample dated 12:00 UTC on day 0 (timestamp 43200). -/
def sampleAtNoon : ThreeHourForecastItem :=
  ⟨43200, ⟨10, 10, 10, 10, 50, 1000⟩, [⟨800, "Clear", "clear sky", "01d"⟩],
    0, ⟨0, 0, none⟩, 0, "", none, none⟩

/-- A concrete current-weather payload, used by the C1 witness. -/
def demoCurrentWeather : CurrentWeatherData :=
  ⟨some ⟨0, 0⟩, [⟨800, "Clear", "clear sky", "01d"⟩], "stations",
    ⟨20, 20, 20, 20, 1000, 50, none, none⟩, 10000, ⟨1, 0, none⟩, none,
    none, 0, 1, ⟨none, none, "GB", 0, 0⟩, 0, 1, "London", 200⟩

/-- A concrete forecast payload (empty sample list), used by the C1
witness. -/
def demoRawForecast : RawForecastResponse :=
  ⟨"200", 0, 0, [], ⟨1, "London", 0, 0, "GB", 0, 0, 0, 0⟩⟩

/-- A concrete upstream environment whose two endpoints both answer 200. -/
def demoWeatherUpstream : WeatherUpstream :=
  ⟨.success demoCurrentWeather, .success demoRawForecast⟩

/-- A concrete environment with a configured API key. -/
def demoWeatherEnv : WeatherEnv := ⟨some "demo-key"⟩

/-- The empty server-side weather cache. -/
def emptyWeatherCache : WeatherCacheStore := fun _ => none

/-! ## GitHub repository normalization (details, trending and search
routes) -/

/-- A JS `string | null` value. -/
inductive JsNullableString
  | jsNull
  | jsStr (s : String)
deriving DecidableEq

/-- `x || ''` on a JS `string | null`: `null` (and `''`) are falsy and
yield `''`; any other string passes through. -/
def jsOrEmpty : JsNullableString → String
  | .jsNull => ""
  | .jsStr s => s

/-- An upstream `license` object (`{ name, url }`); upstream `null` is
`Option.none` at the use sites. -/
structure UpstreamLicense where
  name : String
  url : String
deriving DecidableEq

/-- The upstream GitHub repository object with its nullable fields
(the `GitHubTrendingItem` interface / the untyped `data` of
`getRepoDetails`).  `owner_avatar_url` stands for `owner?.avatar_url`. -/
structure GitHubRepoItem where
  id : Int
  name : String
  full_name : String
  description : JsNullableString
  html_url : String
  stargazers_count : Int
  language : JsNullableString
  owner_avatar_url : JsNullableString
  topics : Option (List String)
  open_issues_count : Int
  created_at : String
  updated_at : String
  homepage : JsNullableString
  forks_count : Int
  license : Option UpstreamLicense
deriving DecidableEq

/-- The normalized project object the three mappings build.  Fields that
every mapping normalizes are plain `String`s; `avatar_url` and
`homepage` keep the nullable type because at least one mapping copies
them unnormalized. -/
structure NormalizedProject where
  id : Int
  name : String
  full_name : String
  description : String
  html_url : String
  stargazers_count : Int
  language : String
  avatar_url : JsNullableString
  topics : List String
  open_issues_count : Int
  created_at : String
  updated_at : String
  homepage : JsNullableString
  forks_count : Int
  license : Option UpstreamLicense
deriving DecidableEq

/-- The object literal of `getRepoDetails` (`src/app/api/github/route.ts`):
`description`/`language`/avatar are `|| ''`-normalized, `topics || []`,
`license` becomes `undefined` when `null` — but `homepage` is copied
unchanged (`homepage: data.homepage`). -/
def getRepoDetailsMap (data : GitHubRepoItem) : NormalizedProject :=
  { id := data.id
    name := data.name
    full_name := data.full_name
    description := jsOrEmpty data.description
    html_url := data.html_url
    stargazers_count := data.stargazers_count
    language := jsOrEmpty data.language
    avatar_url := .jsStr (jsOrEmpty data.owner_avatar_url)
    topics := data.topics.getD []
    open_issues_count := data.open_issues_count
    created_at := data.created_at
    updated_at := data.updated_at
    homepage := data.homepage
    forks_count := data.forks_count
    license := data.license.map (fun l => ⟨l.name, l.url⟩) }

/-- The `.map` callback of `fetchTrendingRepos` (same file): the same
normalization, `homepage` again copied unchanged. -/
def fetchTrendingReposMap (item : GitHubRepoItem) : NormalizedProject :=
  { id := item.id
    name := item.name
    full_name := item.full_name
    description := jsOrEmpty item.description
    html_url := item.html_url
    stargazers_count := item.stargazers_count
    language := jsOrEmpty item.language
    avatar_url := .jsStr (jsOrEmpty item.owner_avatar_url)
    topics := item.topics.getD []
    open_issues_count := item.open_issues_count
    created_at := item.created_at
    updated_at := item.updated_at
    homepage := item.homepage
    forks_count := item.forks_count
    license := item.license.map (fun l => ⟨l.name, l.url⟩) }

/-- The `.map` callback of `searchRepositories`
(`src/app/api/github/search/route.ts`): here `homepage` *is* normalized
(`item.homepage || ''`), while the avatar is copied directly. -/
def searchRepositoriesMap (item : GitHubRepoItem) : NormalizedProject :=
  { id := item.id
    name := item.name
    full_name := item.full_name
    description := jsOrEmpty item.description
    html_url := item.html_url
    stargazers_count := item.stargazers_count
    language := jsOrEmpty item.language
    avatar_url := item.owner_avatar_url
    topics := item.topics.getD []
    open_issues_count := item.open_issues_count
    created_at := item.created_at
    updated_at := item.updated_at
    homepage := .jsStr (jsOrEmpty item.homepage)
    forks_count := item.forks_count
    license := item.license.map (fun l => ⟨l.name, l.url⟩) }

/-- An upstream repository object whose nullable fields are all `null`. -/
def nullFieldsRepo : GitHubRepoItem :=
  ⟨1, "repo", "owner/repo", .jsNull, "https://github.com/owner/repo", 5,
    .jsNull, .jsNull, none, 0, "2024-01-01", "2024-01-02", .jsNull, 2,
    none⟩

/-! ## AI-insight POST handler (gemini route) -/

/-- The `weatherData` payload fields the handler validates and uses. -/
structure GeminiWeatherPayload where
  name : String
  weather : List WeatherCond
  temp : ℚ
deriving DecidableEq

/-- The `project` / `projectData` payload fields the handler validates
and uses. -/
structure GeminiProjectPayload where
  name : String
  description : String
  language : Option String
  stargazers_count : Option Int
deriving DecidableEq

/-- The request body of the AI-insight POST handler; a field is `some`
exactly when it is present and truthy. -/
structure GeminiBody where
  weatherData : Option GeminiWeatherPayload
  projectData : Option GeminiProjectPayload
  project : Option GeminiProjectPayload
deriving DecidableEq

/-- The environment the gemini handler reads. -/
structure GeminiEnv where
  apiKey : Option String
  baseUrl : Option String
deriving DecidableEq

/-- The prompt the handler would send upstream, by mode, with its
inputs (the literal template text is irrelevant to the claims and not
reproduced). -/
inductive GeminiPrompt
  | projectInsight (p : GeminiProjectPayload)
  | globalInsight (w : GeminiWeatherPayload) (p : GeminiProjectPayload)
  | weatherInsight (w : GeminiWeatherPayload)
deriving DecidableEq

/-- The outcome of the POST handler up to the upstream AI call: either a
JSON error response produced before any call, or the upstream request
itself. -/
inductive GeminiOutcome
  | response (status : Nat) (error : String)
  | upstreamRequest (prompt : GeminiPrompt)
deriving DecidableEq

/-- The API-key / base-URL checks performed after mode selection and
before the upstream call. -/
def geminiConfig (env : GeminiEnv) (prompt : GeminiPrompt) :
    GeminiOutcome :=
  match env.apiKey with
  | none => .response 500 "Server configuration error"
  | some key =>
    if key = "" then .response 500 "Server configuration error"
    else
      match env.baseUrl with
      | none => .response 500 "Server configuration error"
      | some url =>
        if url = "" then .response 500 "Server configuration error"
        else .upstreamRequest prompt

/-- The mode selection and validation of the AI-insight POST handler.
The three `if` arms of the source are exactly the three constructor
patterns of the match (mode 1: `project && !weatherData && !projectData`;
mode 2: `weatherData && projectData && !project`; mode 3:
`weatherData && !projectData && !project`); every other combination of
truthy fields falls to the invalid-combination 400. -/
def geminiPOST (body : GeminiBody) (env : GeminiEnv) : GeminiOutcome :=
  match body.project, body.weatherData, body.projectData with
  | some project, none, none =>
    if project.name = "" ∨ project.description = "" then
      .response 400
        "Project name and description are required for project-specific insight"
    else geminiConfig env (.projectInsight project)
  | none, some weatherData, some projectData =>
    if weatherData.weather = [] ∨ projectData.name = "" then
      .response 400
        "Required weather and project data fields are missing for global insight"
    else geminiConfig env (.globalInsight weatherData projectData)
  | none, some weatherData, none =>
    if weatherData.weather = [] ∨ weatherData.name = "" then
      .response 400
        "Required weather data fields are missing for weather-only insight"
    else geminiConfig env (.weatherInsight weatherData)
  | _, _, _ =>
    .response 400
      "Invalid request body. Provide \x7bproject\x7d, \x7bweatherData, projectData\x7d, or just \x7bweatherData\x7d."

/-- A request body carrying both a truthy `project` and truthy
`weatherData`. -/
def demoGeminiBody : GeminiBody :=
  ⟨some ⟨"London", [⟨800, "Clear", "clear sky", "01d"⟩], 20⟩, none,
    some ⟨"react", "A library", none, none⟩⟩

/-! ## GitHub issues helpers and route -/

/-- An issue label (`{ name, color }`). -/
structure GitHubIssueLabel where
  name : String
  color : String
deriving DecidableEq

/-- A GitHub issue as both helpers shape it. -/
structure GitHubIssue where
  id : Int
  number : Int
  title : String
  html_url : String
  labels : List GitHubIssueLabel
  created_at : String
deriving DecidableEq

/-- The field-by-field rebuild of one issue performed by both helpers. -/
def mapIssue (item : GitHubIssue) : GitHubIssue :=
  ⟨item.id, item.number, item.title, item.html_url,
    item.labels.map (fun label => ⟨label.name, label.color⟩),
    item.created_at⟩

/-- Result of an upstream issues fetch: a response with some status and
body, or a thrown error. -/
inductive IssuesFetchResult
  | ok (status : Nat) (data : List GitHubIssue)
  | failure (msg : String)
deriving DecidableEq

/-- `getBeginnerFriendlyIssues` (`src/app/api/github/route.ts`): a
non-200 status returns `[]`, a thrown error is caught and returns `[]`,
and a 200 response is mapped. -/
def getBeginnerFriendlyIssues (upstream : IssuesFetchResult) :
    List GitHubIssue :=
  match upstream with
  | .ok status data => if status ≠ 200 then [] else data.map mapIssue
  | .failure _ => []

/-- An entry of the issues route's in-memory cache. -/
structure IssueCacheEntry where
  data : List GitHubIssue
  timestamp : Int

/-- The issues route's in-memory cache (`issueCache`). -/
def IssueCacheStore : Type := String → Option IssueCacheEntry

/-- The issues route's `CACHE_DURATION` (5 minutes, milliseconds). -/
def ISSUES_CACHE_DURATION : Int := 5 * 60 * 1000

/-- The fetch part of `getRepositoryIssues`: non-200 and thrown errors
give `[]` without caching; a 200 response is mapped and cached. -/
def getRepositoryIssuesFetch (cacheKey : String)
    (cache : IssueCacheStore) (now : Int)
    (upstream : IssuesFetchResult) :
    List GitHubIssue × IssueCacheStore :=
  match upstream with
  | .ok status data =>
    if status ≠ 200 then ([], cache)
    else
      let issues := data.map mapIssue
      (issues,
        fun key => if key = cacheKey then some ⟨issues, now⟩ else cache key)
  | .failure _ => ([], cache)

/-- `getRepositoryIssues` (`src/app/api/github/issues/route.ts`): serve a
fresh cache entry, else fetch. -/
def getRepositoryIssues (repoFullName : String) (cache : IssueCacheStore)
    (now : Int) (upstream : IssuesFetchResult) :
    List GitHubIssue × IssueCacheStore :=
  let cacheKey := "issues_" ++ repoFullName
  match cache cacheKey with
  | some entry =>
    if serverEntryFresh entry.timestamp ISSUES_CACHE_DURATION now then
      (entry.data, cache)
    else getRepositoryIssuesFetch cacheKey cache now upstream
  | none => getRepositoryIssuesFetch cacheKey cache now upstream

/-- The JSON responses of the issues route; `issuesOk` is
`NextResponse.json({ issues })` with the default 200 status. -/
inductive IssuesRouteResponse
  | issuesOk (issues : List GitHubIssue)
  | errorResp (status : Nat) (error : String) (details : String)
deriving DecidableEq

/-- The `GET` handler of the issues route. -/
def issuesGET (repo : Option String) (cache : IssueCacheStore) (now : Int)
    (upstream : IssuesFetchResult) :
    IssuesRouteResponse × IssueCacheStore :=
  match repo with
  | none =>
    (.errorResp 400 "Missing repository parameter"
      "Please provide a repository name in the format owner/repo", cache)
  | some r =>
    if r = "" then
      (.errorResp 400 "Missing repository parameter"
        "Please provide a repository name in the format owner/repo", cache)
    else
      match getRepositoryIssues r cache now upstream with
      | (issues, cache') => (.issuesOk issues, cache')

/-- The empty issues cache. -/
def emptyIssueCache : IssueCacheStore := fun _ => none

/-! ## localStorage helpers (`src/lib/github-utils.ts`) -/

/-- `addToViewHistory`, acting on the stored history list: prepend
`fullName`, drop previous occurrences, and keep at most 20 items
(`[fullName, ...history.filter(item => item !== fullName)].slice(0, 20)`). -/
def addToViewHistory (history : List String) (fullName : String) :
    List String :=
  (fullName :: history.filter (fun item => item != fullName)).take 20

/-- A bookmarked project record (`GitHubProjectData`, `src/types/github.ts`).
The license sub-object `{ name, url? }`. -/
structure ProjectLicense where
  name : String
  url : Option String
deriving DecidableEq

/-- `GitHubProjectData` (`src/types/github.ts`): the normalized project
record persisted by the bookmark helpers.  Optional fields are `Option`s. -/
structure GitHubProjectData where
  id : Int
  name : String
  full_name : String
  description : String
  html_url : String
  stargazers_count : Int
  language : String
  avatar_url : String
  topics : Option (List String)
  contributor_count : Option Int
  open_issues_count : Option Int
  created_at : Option String
  updated_at : Option String
  homepage : Option String
  forks_count : Option Int
  license : Option ProjectLicense
  is_bookmarked : Option Bool
deriving DecidableEq

/-- `addBookmarkedProject`, acting on the stored bookmark list: appends
`{ ...project, is_bookmarked: true }` unless some stored bookmark already
has the same `id`. -/
def addBookmarkedProject (bookmarks : List GitHubProjectData)
    (project : GitHubProjectData) : List GitHubProjectData :=
  if bookmarks.any (fun p => p.id == project.id) then bookmarks
  else bookmarks ++ [{ project with is_bookmarked := some true }]

/-- `removeBookmarkedProject`, acting on the stored bookmark list:
`bookmarks.filter(p => p.id !== projectId)`. -/
def removeBookmarkedProject (bookmarks : List GitHubProjectData)
    (projectId : Int) : List GitHubProjectData :=
  bookmarks.filter (fun p => p.id != projectId)

/-- `isProjectBookmarked`: `bookmarks.some(p => p.id === projectId)`. -/
def isProjectBookmarked (bookmarks : List GitHubProjectData)
    (projectId : Int) : Bool :=
  bookmarks.any (fun p => p.id == projectId)

/-- A concrete project record used by witnesses. -/
def demoProject : GitHubProjectData :=
  ⟨1, "react", "facebook/react", "A library",
    "https://github.com/facebook/react", 100, "JavaScript", "", none, none,
    none, none, none, none, none, none, none⟩

end DevForecast

namespace DevForecast

/-- Claim C2: an entry set at time `t` with ttl `T` is servable at
`t + T - 1` and no longer servable at `t + T + 1`; the client cache's
`has` (and `get`) honour `now < expiryTime` with
`expiryTime = t + T`, and the server-side caches honour
`now - timestamp < ttl`. -/
theorem clientCache_ttl_boundaries {α : Type} (store : ClientStore α)
    (key : String) (d : α) (T t : Int) :
    ClientCache.has (ClientCache.set store key d T t) key (t + T - 1) = true ∧
    ClientCache.has (ClientCache.set store key d T t) key (t + T + 1) = false ∧
    ClientCache.get (ClientCache.set store key d T t) key (t + T - 1) = some d ∧
    ClientCache.get (ClientCache.set store key d T t) key (t + T + 1) = none ∧
    (∀ now : Int,
      ClientCache.has (ClientCache.set store key d T t) key now = true ↔
        now < t + T) ∧
    (∀ timestamp ttl now : Int,
      serverEntryFresh timestamp ttl now = true ↔ now - timestamp < ttl) ∧
    serverEntryFresh t T (t + T - 1) = true ∧
    serverEntryFresh t T (t + T + 1) = false := by
  have hkey : ClientCache.set store key d T t key = some ⟨d, t, t + T⟩ := by
    simp [ClientCache.set]
  refine ⟨?_, ?_, ?_, ?_, ?_, ?_, ?_, ?_⟩
  · simp only [ClientCache.has, hkey, gt_iff_lt, decide_eq_true_eq]
    omega
  · simp only [ClientCache.has, hkey, gt_iff_lt, decide_eq_false_iff_not,
      not_lt]
    omega
  · simp only [ClientCache.get, ClientCache.cleanExpiredEntries, hkey]
    rw [if_neg (by omega)]
  · simp only [ClientCache.get, ClientCache.cleanExpiredEntries, hkey]
    rw [if_pos (by omega)]
  · intro now
    simp only [ClientCache.has, hkey, gt_iff_lt, decide_eq_true_eq]
  · intro timestamp ttl now
    simp only [serverEntryFresh, decide_eq_true_eq]
  · simp only [serverEntryFresh, decide_eq_true_eq]
    omega
  · simp only [serverEntryFresh, decide_eq_false_iff_not, not_lt]
    omega

/-- Claim C9: after `addToViewHistory`, the stored history starts with
`fullName`, contains exactly one occurrence of it, is (after its head) an
order-preserving subsequence of the previous history, and has at most 20
entries. -/
theorem addToViewHistory_invariants (history : List String)
    (fullName : String) :
    (addToViewHistory history fullName).head? = some fullName ∧
    (addToViewHistory history fullName).count fullName = 1 ∧
    (addToViewHistory history fullName).tail.Sublist history ∧
    (addToViewHistory history fullName).length ≤ 20 := by
  have htake :
      addToViewHistory history fullName =
        fullName ::
          (history.filter (fun item => item != fullName)).take 19 := by
    simp [addToViewHistory, List.take_succ_cons]
  refine ⟨?_, ?_, ?_, ?_⟩
  · rw [htake]; rfl
  · rw [htake]
    have hcount :
        ((history.filter (fun item => item != fullName)).take 19).count
          fullName = 0 := by
      refine List.count_eq_zero.mpr ?_
      intro hmem
      have hmem' : fullName ∈ history.filter (fun item => item != fullName) :=
        (List.take_sublist _ _).mem hmem
      have := (List.mem_filter.mp hmem').2
      simp at this
    rw [List.count_cons_self, hcount]
  · rw [htake]
    exact ((List.take_sublist _ _).trans (List.filter_sublist _)).trans
      (List.Sublist.refl _)
  · simp only [addToViewHistory]
    exact List.length_take_le _ _

/-- Claim C10: adding an already-bookmarked id leaves the stored list
unchanged; add and remove both preserve distinctness of the stored ids;
and after removing an id it is no longer reported as bookmarked. -/
theorem bookmark_id_invariants (bookmarks : List GitHubProjectData)
    (project : GitHubProjectData) (projectId : Int) :
    (bookmarks.any (fun p => p.id == project.id) = true →
      addBookmarkedProject bookmarks project = bookmarks) ∧
    ((bookmarks.map (fun p => p.id)).Nodup →
      ((addBookmarkedProject bookmarks project).map (fun p => p.id)).Nodup) ∧
    ((bookmarks.map (fun p => p.id)).Nodup →
      ((removeBookmarkedProject bookmarks projectId).map
        (fun p => p.id)).Nodup) ∧
    isProjectBookmarked (removeBookmarkedProject bookmarks projectId)
      projectId = false := by
  refine ⟨?_, ?_, ?_, ?_⟩
  · intro hmem
    simp [addBookmarkedProject, hmem]
  · intro hnodup
    by_cases hmem : bookmarks.any (fun p => p.id == project.id) = true
    · simpa [addBookmarkedProject, hmem] using hnodup
    · have hnotin : project.id ∉ bookmarks.map (fun p => p.id) := by
        intro hin
        rcases List.mem_map.mp hin with ⟨q, hq, hqid⟩
        exact hmem (List.any_eq_true.mpr ⟨q, hq, by simp [hqid]⟩)
      simp only [addBookmarkedProject, if_neg hmem, List.map_append]
      refine List.Nodup.append hnodup (by simp) ?_
      intro a ha hb
      simp only [List.map_cons, List.map_nil, List.mem_singleton] at hb
      exact hnotin (hb ▸ ha)
  · intro hnodup
    exact hnodup.sublist (List.Sublist.map _ (List.filter_sublist _))
  · simp only [isProjectBookmarked, removeBookmarkedProject]
    rw [List.any_eq_false]
    intro p hp
    have := (List.mem_filter.mp hp).2
    simpa using this

/-! ### Cache-key lemmas (C3) -/

theorem charListLe_cons_lt {a b : Char} (h : a.toNat < b.toNat)
    (as bs : List Char) : charListLe (a :: as) (b :: bs) = true := by
  simp only [charListLe]
  rw [if_pos h]

theorem charListLe_cons_gt {a b : Char} (h : b.toNat < a.toNat)
    (as bs : List Char) : charListLe (a :: as) (b :: bs) = false := by
  simp only [charListLe]
  rw [if_neg (by omega), if_pos h]

theorem charListLe_cons_eq {a b : Char} (h : a.toNat = b.toNat)
    (as bs : List Char) :
    charListLe (a :: as) (b :: bs) = charListLe as bs := by
  simp only [charListLe]
  rw [if_neg (by omega), if_neg (by omega)]

theorem charListLe_total :
    ∀ a b : List Char, charListLe a b = true ∨ charListLe b a = true
  | [], _ => Or.inl rfl
  | _ :: _, [] => Or.inr rfl
  | a :: as, b :: bs => by
    rcases Nat.lt_trichotomy a.toNat b.toNat with h | h | h
    · exact Or.inl (charListLe_cons_lt h as bs)
    · rcases charListLe_total as bs with ih | ih
      · exact Or.inl (by rw [charListLe_cons_eq h]; exact ih)
      · exact Or.inr (by rw [charListLe_cons_eq h.symm]; exact ih)
    · exact Or.inr (charListLe_cons_lt h bs as)

theorem charListLe_trans :
    ∀ a b c : List Char, charListLe a b = true → charListLe b c = true →
      charListLe a c = true
  | [], _, _, _, _ => rfl
  | _ :: _, [], _, hab, _ => by simp [charListLe] at hab
  | _ :: _, _ :: _, [], _, hbc => by simp [charListLe] at hbc
  | a :: as, b :: bs, c :: cs, hab, hbc => by
    rcases Nat.lt_trichotomy a.toNat b.toNat with h1 | h1 | h1
    · rcases Nat.lt_trichotomy b.toNat c.toNat with h2 | h2 | h2
      · exact charListLe_cons_lt (by omega) as cs
      · exact charListLe_cons_lt (by omega) as cs
      · rw [charListLe_cons_gt h2] at hbc
        exact absurd hbc Bool.false_ne_true
    · rcases Nat.lt_trichotomy b.toNat c.toNat with h2 | h2 | h2
      · exact charListLe_cons_lt (by omega) as cs
      · rw [charListLe_cons_eq h1] at hab
        rw [charListLe_cons_eq h2] at hbc
        rw [charListLe_cons_eq (by omega)]
        exact charListLe_trans as bs cs hab hbc
      · rw [charListLe_cons_gt h2] at hbc
        exact absurd hbc Bool.false_ne_true
    · rw [charListLe_cons_gt h1] at hab
      exact absurd hab Bool.false_ne_true

theorem charListLe_antisymm :
    ∀ a b : List Char, charListLe a b = true → charListLe b a = true →
      a = b
  | [], [], _, _ => rfl
  | [], _ :: _, _, hba => by simp [charListLe] at hba
  | _ :: _, [], hab, _ => by simp [charListLe] at hab
  | a :: as, b :: bs, hab, hba => by
    rcases Nat.lt_trichotomy a.toNat b.toNat with h | h | h
    · rw [charListLe_cons_gt h] at hba
      exact absurd hba Bool.false_ne_true
    · have hc : a = b := Char.ext (UInt32.toNat.inj h)
      rw [charListLe_cons_eq h] at hab
      rw [charListLe_cons_eq h.symm] at hba
      rw [hc, charListLe_antisymm as bs hab hba]
    · rw [charListLe_cons_gt h] at hab
      exact absurd hab Bool.false_ne_true

instance : IsTotal (String × String) keyLe :=
  ⟨fun a b => charListLe_total a.1.data b.1.data⟩

instance : IsTrans (String × String) keyLe :=
  ⟨fun a b c hab hbc => charListLe_trans a.1.data b.1.data c.1.data hab hbc⟩

instance : IsAntisymm (String × String) keyLt :=
  ⟨fun _ _ hab hba =>
    absurd (String.ext (charListLe_antisymm _ _ hab.1 hba.1)) hab.2⟩

theorem insertionSort_sorted_keyLt (l : List (String × String))
    (hnodup : (l.map Prod.fst).Nodup) :
    (l.insertionSort keyLe).Sorted keyLt := by
  have hs : (l.insertionSort keyLe).Sorted keyLe :=
    List.sorted_insertionSort keyLe l
  have hperm := List.perm_insertionSort keyLe l
  have hnodup' : ((l.insertionSort keyLe).map Prod.fst).Nodup :=
    hnodup.perm (hperm.map Prod.fst).symm
  have hne : (l.insertionSort keyLe).Pairwise fun a b => a.1 ≠ b.1 :=
    List.pairwise_map.mp hnodup'
  exact hs.and hne

theorem insertionSort_eq_of_perm (p1 p2 : List (String × String))
    (hperm : p1.Perm p2) (hnodup : (p1.map Prod.fst).Nodup) :
    p1.insertionSort keyLe = p2.insertionSort keyLe := by
  have h2 : (p2.map Prod.fst).Nodup := hnodup.perm (hperm.map Prod.fst)
  refine List.eq_of_perm_of_sorted (r := keyLt) ?_
    (insertionSort_sorted_keyLt p1 hnodup) (insertionSort_sorted_keyLt p2 h2)
  exact (List.perm_insertionSort keyLe p1).trans
    (hperm.trans (List.perm_insertionSort keyLe p2).symm)

theorem qmark_data : ("?" : String).data = ['?'] := by decide

theorem eq_sign_data : ("=" : String).data = ['='] := by decide

theorem amp_sign_data : ("&" : String).data = ['&'] := by decide

theorem serialize_pair_data (q : String × String) :
    (q.1 ++ "=" ++ q.2).data = pairChunk q := by
  simp [String.data_append, eq_sign_data, pairChunk]

theorem chunks_data (l : List (String × String)) :
    (l.map (fun q => q.1 ++ "=" ++ q.2)).map String.data =
      l.map pairChunk := by
  rw [List.map_map]
  exact List.map_congr_left fun q _ => serialize_pair_data q

theorem joinParts_amp_data :
    ∀ l : List String,
      (joinParts "&" l).data = joinAmpData (l.map String.data)
  | [] => rfl
  | [_] => rfl
  | p :: q :: t => by
    have ih := joinParts_amp_data (q :: t)
    simp only [joinParts, joinAmpData, List.map_cons, String.data_append,
      amp_sign_data, ih, List.append_assoc, List.singleton_append]

theorem sep_split {c : Char} :
    ∀ l1 l2 r1 r2 : List Char, c ∉ l1 → c ∉ l2 →
      l1 ++ c :: r1 = l2 ++ c :: r2 → l1 = l2 ∧ r1 = r2 := by
  intro l1
  induction l1 with
  | nil =>
    intro l2 r1 r2 _ h2 heq
    cases l2 with
    | nil => simpa using heq
    | cons x xs =>
      simp only [List.nil_append, List.cons_append, List.cons.injEq] at heq
      exact absurd (by rw [heq.1]; exact List.mem_cons_self x xs) h2
  | cons a as ih =>
    intro l2 r1 r2 h1 h2 heq
    cases l2 with
    | nil =>
      simp only [List.cons_append, List.nil_append, List.cons.injEq] at heq
      exact absurd (by rw [← heq.1]; exact List.mem_cons_self a as) h1
    | cons x xs =>
      simp only [List.cons_append, List.cons.injEq] at heq
      obtain ⟨hax, heq'⟩ := heq
      have h1' : c ∉ as := fun hmem => h1 (List.mem_cons_of_mem _ hmem)
      have h2' : c ∉ xs := fun hmem => h2 (List.mem_cons_of_mem _ hmem)
      obtain ⟨hl, hr⟩ := ih xs r1 r2 h1' h2' heq'
      exact ⟨by rw [hax, hl], hr⟩

theorem joinAmpData_inj :
    ∀ cs1 cs2 : List (List Char),
      (∀ l ∈ cs1, '&' ∉ l ∧ l ≠ []) → (∀ l ∈ cs2, '&' ∉ l ∧ l ≠ []) →
      joinAmpData cs1 = joinAmpData cs2 → cs1 = cs2
  | [], [], _, _, _ => rfl
  | [], [x], _, h2, heq => by
    exact absurd (by simpa [joinAmpData] using heq.symm)
      (h2 x (List.mem_cons_self x [])).2
  | [], x :: y :: t, _, _, heq => by
    simp only [joinAmpData] at heq
    exact absurd heq.symm (by simp)
  | [x], [], h1, _, heq => by
    exact absurd (by simpa [joinAmpData] using heq)
      (h1 x (List.mem_cons_self x [])).2
  | x :: y :: t, [], _, _, heq => by
    simp only [joinAmpData] at heq
    exact absurd heq (by simp)
  | [x], [z], _, _, heq => by
    simp only [joinAmpData] at heq
    rw [heq]
  | [x], z :: w :: u, h1, _, heq => by
    simp only [joinAmpData] at heq
    refine absurd ?_ (h1 x (List.mem_cons_self x [])).1
    rw [heq]
    exact List.mem_append_right _ (List.mem_cons_self _ _)
  | x :: y :: t, [z], _, h2, heq => by
    simp only [joinAmpData] at heq
    refine absurd ?_ (h2 z (List.mem_cons_self z [])).1
    rw [← heq]
    exact List.mem_append_right _ (List.mem_cons_self _ _)
  | x :: y :: t, z :: w :: u, h1, h2, heq => by
    simp only [joinAmpData] at heq
    obtain ⟨hx, hrest⟩ := sep_split x z (joinAmpData (y :: t))
      (joinAmpData (w :: u)) (h1 x (List.mem_cons_self _ _)).1
      (h2 z (List.mem_cons_self _ _)).1 heq
    have ih := joinAmpData_inj (y :: t) (w :: u)
      (fun l hl => h1 l (List.mem_cons_of_mem _ hl))
      (fun l hl => h2 l (List.mem_cons_of_mem _ hl)) hrest
    rw [hx, ih]

theorem map_pairChunk_inj :
    ∀ l1 l2 : List (String × String),
      (∀ q ∈ l1, '=' ∉ q.1.data) → (∀ q ∈ l2, '=' ∉ q.1.data) →
      l1.map pairChunk = l2.map pairChunk → l1 = l2
  | [], [], _, _, _ => rfl
  | [], _ :: _, _, _, heq => by simp at heq
  | _ :: _, [], _, _, heq => by simp at heq
  | q :: t, r :: u, h1, h2, heq => by
    simp only [List.map_cons, List.cons.injEq] at heq
    obtain ⟨hqr, hrest⟩ := heq
    simp only [pairChunk] at hqr
    obtain ⟨hk, hv⟩ := sep_split q.1.data r.1.data q.2.data r.2.data
      (h1 q (List.mem_cons_self _ _)) (h2 r (List.mem_cons_self _ _)) hqr
    have hq : q = r := Prod.ext (String.ext hk) (String.ext hv)
    rw [hq, map_pairChunk_inj t u
      (fun s hs => h1 s (List.mem_cons_of_mem _ hs))
      (fun s hs => h2 s (List.mem_cons_of_mem _ hs)) hrest]

/-- When every key and value is free of the separator characters, the
serialized chunks of the sorted parameter list are `&`-free and nonempty. -/
theorem chunk_facts (p : List (String × String))
    (hp : ∀ q ∈ p, '&' ∉ q.1.data ∧ '=' ∉ q.1.data ∧ '&' ∉ q.2.data ∧
      '=' ∉ q.2.data) :
    ∀ l ∈ (p.insertionSort keyLe).map pairChunk, '&' ∉ l ∧ l ≠ [] := by
  intro l hl
  rcases List.mem_map.mp hl with ⟨q, hq, rfl⟩
  have hq' : q ∈ p := ((List.perm_insertionSort keyLe p).mem_iff).mp hq
  obtain ⟨hk1, _, hv1, _⟩ := hp q hq'
  constructor
  · intro hmem
    rcases List.mem_append.mp hmem with h | h
    · exact hk1 h
    · rcases List.mem_cons.mp h with h | h
      · exact absurd h (by decide)
      · exact hv1 h
  · simp [pairChunk]

theorem sorted_keys_sep_free (p : List (String × String))
    (hp : ∀ q ∈ p, '&' ∉ q.1.data ∧ '=' ∉ q.1.data ∧ '&' ∉ q.2.data ∧
      '=' ∉ q.2.data) :
    ∀ q ∈ p.insertionSort keyLe, '=' ∉ q.1.data := by
  intro q hq
  exact (hp q (((List.perm_insertionSort keyLe p).mem_iff).mp hq)).2.1

/-- The characters of a generated cache key when the parameter list is
empty: just the endpoint. -/
theorem generateCacheKey_data_nil (ep : String)
    (p : List (String × String)) (h : p.insertionSort keyLe = []) :
    (generateCacheKey ep p).data = ep.data := by
  simp [generateCacheKey, h, joinParts, String.data_append]

/-- The characters of a generated cache key when the parameter list is
nonempty: the endpoint, then `?` and the `&`-joined sorted chunks. -/
theorem generateCacheKey_data_cons (ep : String)
    (p : List (String × String)) (q : String × String)
    (t : List (String × String)) (h : p.insertionSort keyLe = q :: t) :
    (generateCacheKey ep p).data =
      ep.data ++ '?' :: joinAmpData ((q :: t).map pairChunk) := by
  have hne : joinParts "&" ((q :: t).map (fun r => r.1 ++ "=" ++ r.2)) ≠
      "" := by
    intro habs
    have hdata := congrArg String.data habs
    rw [joinParts_amp_data, chunks_data] at hdata
    cases t with
    | nil => simp [joinAmpData, pairChunk] at hdata
    | cons r u => simp [joinAmpData] at hdata
  simp only [generateCacheKey, h, if_neg hne, String.data_append,
    qmark_data, joinParts_amp_data, chunks_data, List.append_assoc,
    List.singleton_append]

/-- Claim C3 (amended): `generateCacheKey` is independent of the
enumeration order of the parameters; and restricted injectivity holds:
when the endpoints contain no `?` and no key or value contains `&` or
`=`, equal cache keys force equal endpoints and permutation-equal
parameter lists.  (Unrestricted distinctness of keys for distinct
`(endpoint, params)` pairs fails; see `generateCacheKey_collision`.) -/
theorem generateCacheKey_order_independent_and_injective
    (ep1 ep2 : String) (p1 p2 : List (String × String)) :
    (ep1 = ep2 → p1.Perm p2 → (p1.map Prod.fst).Nodup →
      generateCacheKey ep1 p1 = generateCacheKey ep2 p2) ∧
    ('?' ∉ ep1.data → '?' ∉ ep2.data →
      (∀ q ∈ p1, '&' ∉ q.1.data ∧ '=' ∉ q.1.data ∧ '&' ∉ q.2.data ∧
        '=' ∉ q.2.data) →
      (∀ q ∈ p2, '&' ∉ q.1.data ∧ '=' ∉ q.1.data ∧ '&' ∉ q.2.data ∧
        '=' ∉ q.2.data) →
      generateCacheKey ep1 p1 = generateCacheKey ep2 p2 →
      ep1 = ep2 ∧ p1.Perm p2) := by
  constructor
  · intro hep hperm hnodup
    subst hep
    simp only [generateCacheKey]
    rw [insertionSort_eq_of_perm p1 p2 hperm hnodup]
  · intro hq1 hq2 hsep1 hsep2 heq
    have hdata := congrArg String.data heq
    cases hs1 : p1.insertionSort keyLe with
    | nil =>
      cases hs2 : p2.insertionSort keyLe with
      | nil =>
        rw [generateCacheKey_data_nil ep1 p1 hs1,
          generateCacheKey_data_nil ep2 p2 hs2] at hdata
        have hp1 : p1 = [] := by
          have := List.perm_insertionSort keyLe p1
          rw [hs1] at this
          exact this.symm.eq_nil
        have hp2 : p2 = [] := by
          have := List.perm_insertionSort keyLe p2
          rw [hs2] at this
          exact this.symm.eq_nil
        exact ⟨String.ext hdata, by rw [hp1, hp2]⟩
      | cons q t =>
        rw [generateCacheKey_data_nil ep1 p1 hs1,
          generateCacheKey_data_cons ep2 p2 q t hs2] at hdata
        have hmem : '?' ∈ ep1.data := by
          rw [hdata]
          exact List.mem_append_right _ (List.mem_cons_self _ _)
        exact absurd hmem hq1
    | cons q t =>
      cases hs2 : p2.insertionSort keyLe with
      | nil =>
        rw [generateCacheKey_data_cons ep1 p1 q t hs1,
          generateCacheKey_data_nil ep2 p2 hs2] at hdata
        have hmem : '?' ∈ ep2.data := by
          rw [← hdata]
          exact List.mem_append_right _ (List.mem_cons_self _ _)
        exact absurd hmem hq2
      | cons r u =>
        rw [generateCacheKey_data_cons ep1 p1 q t hs1,
          generateCacheKey_data_cons ep2 p2 r u hs2] at hdata
        obtain ⟨hep, hrest⟩ := sep_split ep1.data ep2.data
          (joinAmpData ((q :: t).map pairChunk))
          (joinAmpData ((r :: u).map pairChunk)) hq1 hq2 hdata
        have hchunks : (q :: t).map pairChunk = (r :: u).map pairChunk := by
          refine joinAmpData_inj _ _ ?_ ?_ hrest
          · rw [← hs1]; exact chunk_facts p1 hsep1
          · rw [← hs2]; exact chunk_facts p2 hsep2
        have hsorted : (q :: t) = (r :: u) := by
          refine map_pairChunk_inj _ _ ?_ ?_ hchunks
          · rw [← hs1]; exact sorted_keys_sep_free p1 hsep1
          · rw [← hs2]; exact sorted_keys_sep_free p2 hsep2
        refine ⟨String.ext hep, ?_⟩
        have h1 := List.perm_insertionSort keyLe p1
        have h2 := List.perm_insertionSort keyLe p2
        rw [hs1] at h1
        rw [hs2] at h2
        exact h1.symm.trans (hsorted ▸ h2)

/-- Counterexample to the unrestricted distinctness clause of claim C3:
the distinct pairs `("a?b=1", {})` and `("a", {b: 1})` generate the same
cache key. -/
theorem generateCacheKey_collision :
    generateCacheKey "a?b=1" [] = generateCacheKey "a" [("b", "1")] ∧
    ¬("a?b=1" = "a" ∧
      ([] : List (String × String)).Perm [("b", "1")]) := by
  constructor
  · decide
  · decide

/-- Witness for C3 at concrete inputs: order independence for the weather
query parameters, and restricted injectivity at a separator-free input. -/
theorem generateCacheKey_order_independent_witness :
    generateCacheKey "/api/weather" [("city", "London"), ("units", "metric")]
      = generateCacheKey "/api/weather"
        [("units", "metric"), ("city", "London")] ∧
    ("/api/weather" = "/api/weather" ∧
      [("city", "London")].Perm [("city", "London")]) :=
  ⟨(generateCacheKey_order_independent_and_injective "/api/weather"
      "/api/weather" [("city", "London"), ("units", "metric")]
      [("units", "metric"), ("city", "London")]).1 rfl (by decide) (by decide),
   (generateCacheKey_order_independent_and_injective "/api/weather"
      "/api/weather" [("city", "London")] [("city", "London")]).2
      (by decide) (by decide) (by decide) (by decide) rfl⟩

/-- Witness for C10 at a concrete bookmark list. -/
theorem bookmark_id_invariants_witness :
    addBookmarkedProject [demoProject] demoProject = [demoProject] ∧
    ((addBookmarkedProject [] demoProject).map (fun p => p.id)).Nodup ∧
    ((removeBookmarkedProject [demoProject] 1).map (fun p => p.id)).Nodup ∧
    isProjectBookmarked (removeBookmarkedProject [demoProject] 1) 1 = false :=
  ⟨(bookmark_id_invariants [demoProject] demoProject 1).1 (by decide),
   (bookmark_id_invariants [] demoProject 1).2.1 (by decide),
   (bookmark_id_invariants [demoProject] demoProject 1).2.2.1 (by decide),
   (bookmark_id_invariants [demoProject] demoProject 1).2.2.2⟩

/-! ### Forecast bucketing lemmas (C5) -/

theorem bucketInit_dt (off : Int) (item : ThreeHourForecastItem) :
    (bucketInit off item).dt = item.dt := by
  by_cases h : 11 ≤ utcHourOf off item.dt ∧ utcHourOf off item.dt ≤ 13
  · simp [bucketInit, h]
  · simp [bucketInit, h]

theorem bucketPush_dt (item : ThreeHourForecastItem) (b : BucketData) :
    (bucketPush item b).dt = b.dt := rfl

theorem mem_updateBucket {k : Int} {b : BucketData} (key : Int)
    (f : BucketData → BucketData) :
    ∀ acc : List (Int × BucketData), (k, b) ∈ updateBucket key f acc →
      (k, b) ∈ acc ∨ (k = key ∧ ∃ b', (k, b') ∈ acc ∧ b = f b')
  | [], h => by simp [updateBucket] at h
  | (k0, b0) :: rest, h => by
    by_cases hk : k0 = key
    · rw [updateBucket, if_pos hk] at h
      rcases List.mem_cons.mp h with h | h
      · simp only [Prod.mk.injEq] at h
        refine Or.inr ⟨h.1.trans hk, b0, ?_, h.2⟩
        rw [h.1]
        exact List.mem_cons_self _ _
      · exact Or.inl (List.mem_cons_of_mem _ h)
    · rw [updateBucket, if_neg hk] at h
      rcases List.mem_cons.mp h with h | h
      · exact Or.inl (h ▸ List.mem_cons_self _ _)
      · rcases mem_updateBucket key f rest h with h' | ⟨hkey, b', hb', hf⟩
        · exact Or.inl (List.mem_cons_of_mem _ h')
        · exact Or.inr ⟨hkey, b', List.mem_cons_of_mem _ hb', hf⟩

theorem lookupBucket_none_of_update {k key : Int}
    (f : BucketData → BucketData) :
    ∀ acc : List (Int × BucketData),
      lookupBucket k (updateBucket key f acc) = none →
      lookupBucket k acc = none
  | [], _ => rfl
  | (k0, b0) :: rest, h => by
    by_cases hk : k0 = key
    · rw [updateBucket, if_pos hk] at h
      rw [lookupBucket] at h ⊢
      by_cases hk0 : k0 = k
      · rw [if_pos hk0] at h
        exact absurd h (by simp)
      · rw [if_neg hk0] at h ⊢
        exact h
    · rw [updateBucket, if_neg hk] at h
      rw [lookupBucket] at h ⊢
      by_cases hk0 : k0 = k
      · rw [if_pos hk0] at h
        exact absurd h (by simp)
      · rw [if_neg hk0] at h ⊢
        exact lookupBucket_none_of_update f rest h

theorem lookupBucket_append_none {k key : Int} {bnew : BucketData} :
    ∀ acc : List (Int × BucketData),
      lookupBucket k (acc ++ [(key, bnew)]) = none →
      lookupBucket k acc = none ∧ k ≠ key
  | [], h => by
    rw [List.nil_append, lookupBucket] at h
    refine ⟨rfl, fun hk => ?_⟩
    rw [if_pos hk.symm] at h
    exact absurd h (by simp)
  | (k0, b0) :: rest, h => by
    rw [List.cons_append, lookupBucket] at h
    rw [lookupBucket]
    by_cases hk0 : k0 = k
    · rw [if_pos hk0] at h
      exact absurd h (by simp)
    · rw [if_neg hk0] at h ⊢
      exact lookupBucket_append_none rest h

theorem bucketFold_inv (off : Int) :
    ∀ (rest processed : List ThreeHourForecastItem)
      (acc : List (Int × BucketData)),
      (∀ k b, (k, b) ∈ acc →
        ((processed.find? (fun it => dateKeyOf off it.dt = k)).map
          (fun it => it.dt)) = some b.dt) →
      (∀ k, lookupBucket k acc = none →
        processed.find? (fun it => dateKeyOf off it.dt = k) = none) →
      ∀ k b, (k, b) ∈ List.foldl (bucketStep off) acc rest →
        (((processed ++ rest).find? (fun it => dateKeyOf off it.dt = k)).map
          (fun it => it.dt)) = some b.dt
  | [], processed, acc, inv1, _, k, b, hmem => by
    rw [List.append_nil]
    exact inv1 k b (by simpa using hmem)
  | i :: rest', processed, acc, inv1, inv2, k, b, hmem => by
    rw [show processed ++ i :: rest' = (processed ++ [i]) ++ rest' by simp]
    rw [List.foldl_cons] at hmem
    refine bucketFold_inv off rest' (processed ++ [i])
      (bucketStep off acc i) ?_ ?_ k b hmem
    · intro k' b' hmem'
      rw [bucketStep] at hmem'
      cases hlook : lookupBucket (dateKeyOf off i.dt) acc with
      | some b0 =>
        rw [hlook] at hmem'
        rcases mem_updateBucket _ _ acc hmem' with h | ⟨_, b'', hb'', hf⟩
        · have := inv1 k' b' h
          rw [List.find?_append]
          cases hfind : processed.find?
              (fun it => dateKeyOf off it.dt = k') with
          | none => rw [hfind] at this; simp at this
          | some it0 =>
            rw [hfind] at this
            simpa using this
        · have := inv1 k' b'' hb''
          rw [List.find?_append, hf]
          cases hfind : processed.find?
              (fun it => dateKeyOf off it.dt = k') with
          | none => rw [hfind] at this; simp at this
          | some it0 =>
            rw [hfind] at this
            simpa [bucketPush_dt] using this
      | none =>
        rw [hlook] at hmem'
        rcases List.mem_append.mp hmem' with h | h
        · have := inv1 k' b' h
          rw [List.find?_append]
          cases hfind : processed.find?
              (fun it => dateKeyOf off it.dt = k') with
          | none => rw [hfind] at this; simp at this
          | some it0 =>
            rw [hfind] at this
            simpa using this
        · simp only [List.mem_singleton, Prod.mk.injEq] at h
          obtain ⟨hk', hb'⟩ := h
          subst hk'
          have hnone := inv2 _ hlook
          rw [List.find?_append, hnone]
          simp [hb', List.find?_cons, bucketPush_dt, bucketInit_dt]
    · intro k' hnone'
      rw [bucketStep] at hnone'
      cases hlook : lookupBucket (dateKeyOf off i.dt) acc with
      | some b0 =>
        rw [hlook] at hnone'
        have h1 := lookupBucket_none_of_update _ acc hnone'
        have h2 := inv2 k' h1
        rw [List.find?_append, h2]
        simp only [Option.none_or]
        rw [List.find?_cons]
        have hkne : k' ≠ dateKeyOf off i.dt := by
          intro hk
          rw [hk] at h1
          rw [h1] at hlook
          exact absurd hlook (by simp)
        rw [show (decide (dateKeyOf off i.dt = k')) = false by
          simp [Ne.symm hkne]]
        rfl
      | none =>
        rw [hlook] at hnone'
        obtain ⟨h1, h2⟩ := lookupBucket_append_none acc hnone'
        have h3 := inv2 k' h1
        rw [List.find?_append, h3]
        simp only [Option.none_or]
        rw [List.find?_cons]
        rw [show (decide (dateKeyOf off i.dt = k')) = false by
          simp [Ne.symm h2]]
        rfl

/-- Claim C5 (amended): the timestamp recorded for every day bucket of
`processForecastList` is the timestamp of the *first* sample of that
bucket (in list order); the noon rule of the source is only evaluated for
the first sample of a bucket and coincides there with the first-sample
rule.  (The claim's preference for a noon sample anywhere in the bucket
is refuted by `buildDaily_noon_counterexample`.)  The `weather` arrays
are assumed nonempty, as the source would throw on `weather[0]`
otherwise. -/
theorem buildDaily_dt_first_sample (list : List ThreeHourForecastItem)
    (off : Int) (_hweather : ∀ it ∈ list, it.weather ≠ []) :
    ∀ k b, (k, b) ∈ buildDaily list off →
      ((list.find? (fun it => dateKeyOf off it.dt = k)).map
        (fun it => it.dt)) = some b.dt := by
  intro k b hmem
  have := bucketFold_inv off list [] []
    (fun k' b' h => by simp at h)
    (fun k' _ => rfl) k b (by simpa [buildDaily] using hmem)
  simpa using this

/-- Counterexample to claim C5 as stated: a bucket whose first sample is
at 09:00 local and which also contains a 12:00 local sample records the
09:00 timestamp, not the noon one. -/
theorem buildDaily_noon_counterexample :
    ¬ noonClaim [sampleAt9, sampleAtNoon] 0 := by
  unfold noonClaim
  decide

/-- Witness for C5: a single noon sample, whose bucket records its
timestamp. -/
theorem buildDaily_dt_first_sample_witness :
    ((([sampleAtNoon] : List ThreeHourForecastItem).find?
      (fun it => dateKeyOf 0 it.dt = 0)).map (fun it => it.dt)) =
      some (⟨[10], ["01d"], [0], 43200⟩ : BucketData).dt :=
  buildDaily_dt_first_sample [sampleAtNoon] 0 (by decide) 0
    ⟨[10], ["01d"], [0], 43200⟩ (by decide)

/-! ### Icon aggregation lemmas (C6) -/

theorem freqGet_freqSet (k k' : String) (v : Nat) :
    ∀ f : List (String × Nat),
      freqGet (freqSet f k v) k' = if k = k' then v else freqGet f k'
  | [] => rfl
  | (k0, n0) :: rest => by
    have ih := freqGet_freqSet k k' v rest
    by_cases h0 : k0 = k <;> by_cases h : k = k' <;>
      by_cases h2 : k0 = k' <;>
      simp_all [freqSet, freqGet]

theorem le_foldr_max {α : Type} (f : α → Nat) :
    ∀ l : List α, ∀ x ∈ l, f x ≤ (l.map f).foldr max 0
  | [], x, hx => absurd hx (by simp)
  | a :: l, x, hx => by
    rcases List.mem_cons.mp hx with rfl | hx'
    · simp only [List.map_cons, List.foldr_cons]
      exact Nat.le_max_left _ _
    · simp only [List.map_cons, List.foldr_cons]
      exact le_trans (le_foldr_max f l x hx') (Nat.le_max_right _ _)

theorem foldr_max_le {α : Type} (f : α → Nat) (B : Nat) :
    ∀ l : List α, (∀ x ∈ l, f x ≤ B) → (l.map f).foldr max 0 ≤ B
  | [], _ => Nat.zero_le B
  | a :: l, h => by
    simp only [List.map_cons, List.foldr_cons]
    exact max_le (h a (List.mem_cons_self _ _))
      (foldr_max_le f B l fun x hx => h x (List.mem_cons_of_mem _ hx))

theorem count_le_maxIconCount (l : List String) (x : String) :
    l.count x ≤ maxIconCount l := by
  by_cases hx : x ∈ l
  · exact le_foldr_max (fun c => l.count c) l x hx
  · rw [List.count_eq_zero.mpr hx]
    exact Nat.zero_le _

theorem maxIconCount_le (l : List String) (B : Nat)
    (h : ∀ x ∈ l, l.count x ≤ B) : maxIconCount l ≤ B :=
  foldr_max_le (fun c => l.count c) B l h

theorem maxIconCount_append_singleton (l : List String) (c : String) :
    maxIconCount (l ++ [c]) = max (maxIconCount l) (l.count c + 1) := by
  apply le_antisymm
  · apply maxIconCount_le
    intro x _
    rw [List.count_append, List.count_singleton]
    by_cases hcx : c = x
    · subst hcx
      simp only [beq_self_eq_true, if_true]
      exact le_max_of_le_right (by omega)
    · rw [if_neg (by simpa using hcx)]
      exact le_max_of_le_left (by simpa using count_le_maxIconCount l x)
  · apply max_le
    · apply maxIconCount_le
      intro x hx
      refine le_trans ?_ (count_le_maxIconCount (l ++ [c]) x)
      rw [List.count_append]
      omega
    · have := count_le_maxIconCount (l ++ [c]) c
      rw [List.count_append, List.count_singleton] at this
      simpa using this

theorem findAttain_append_some (M : Nat) :
    ∀ (l seen l2 : List String) (r : String),
      findAttain M seen l = some r → findAttain M seen (l ++ l2) = some r
  | [], _, _, _, h => by simp [findAttain] at h
  | c :: t, seen, l2, r, h => by
    rw [findAttain] at h
    rw [List.cons_append, findAttain]
    by_cases hc : (seen ++ [c]).count c = M
    · rw [if_pos hc] at h ⊢
      exact h
    · rw [if_neg hc] at h ⊢
      exact findAttain_append_some M t (seen ++ [c]) l2 r h

theorem findAttain_append_none (M : Nat) :
    ∀ l seen l2 : List String,
      findAttain M seen l = none →
      findAttain M seen (l ++ l2) = findAttain M (seen ++ l) l2
  | [], seen, l2, _ => by simp
  | c :: t, seen, l2, h => by
    rw [findAttain] at h
    rw [List.cons_append, findAttain]
    by_cases hc : (seen ++ [c]).count c = M
    · rw [if_pos hc] at h
      exact absurd h (by simp)
    · rw [if_neg hc] at h ⊢
      rw [findAttain_append_none M t (seen ++ [c]) l2 h]
      congr 1
      simp

theorem findAttain_none_of_lt (M : Nat) :
    ∀ l seen : List String, (∀ x, (seen ++ l).count x < M) →
      findAttain M seen l = none
  | [], _, _ => rfl
  | c :: t, seen, h => by
    rw [findAttain]
    have hc : (seen ++ [c]).count c < M := by
      have h' := h c
      simp only [List.count_append, List.count_cons, List.count_singleton,
        List.count_nil, beq_self_eq_true, if_true] at h' ⊢
      omega
    rw [if_neg (Nat.ne_of_lt hc)]
    refine findAttain_none_of_lt M t (seen ++ [c]) fun x => ?_
    rw [show (seen ++ [c]) ++ t = seen ++ c :: t by simp]
    exact h x

theorem count_ge_of_findAttain (M : Nat) :
    ∀ (l seen : List String) (r : String),
      findAttain M seen l = some r → M ≤ (seen ++ l).count r
  | [], _, _, h => by simp [findAttain] at h
  | c :: t, seen, r, h => by
    rw [findAttain] at h
    by_cases hc : (seen ++ [c]).count c = M
    · rw [if_pos hc] at h
      injection h with h'
      subst h'
      rw [List.count_append] at hc ⊢
      simp only [List.count_cons, List.count_singleton, List.count_nil,
        beq_self_eq_true, if_true] at hc ⊢
      omega
    · rw [if_neg hc] at h
      have := count_ge_of_findAttain M t (seen ++ [c]) r h
      rw [show (seen ++ [c]) ++ t = seen ++ c :: t by simp] at this
      exact this

theorem iconStep_inv (seen : List String) (st : IconFold) (ic : String)
    (hfreq : ∀ x, freqGet st.frequency x = seen.count x)
    (hmax : st.maxFreq = maxIconCount seen)
    (hatt : seen = [] ∨
      findAttain (maxIconCount seen) [] seen =
        some st.mostFrequentIcon) :
    (∀ x, freqGet (iconStep st ic).frequency x =
      (seen ++ [replaceNWithD ic]).count x) ∧
    (iconStep st ic).maxFreq =
      maxIconCount (seen ++ [replaceNWithD ic]) ∧
    findAttain (maxIconCount (seen ++ [replaceNWithD ic])) []
        (seen ++ [replaceNWithD ic]) =
      some (iconStep st ic).mostFrequentIcon := by
  have hfreqeq : (iconStep st ic).frequency =
      freqSet st.frequency (replaceNWithD ic)
        (freqGet st.frequency (replaceNWithD ic) + 1) := by
    simp only [iconStep]
    split <;> rfl
  have hcount1 : ∀ x, freqGet (iconStep st ic).frequency x =
      (seen ++ [replaceNWithD ic]).count x := by
    intro x
    rw [hfreqeq, freqGet_freqSet, List.count_append, List.count_singleton]
    by_cases hcx : replaceNWithD ic = x
    · rw [if_pos hcx, hfreq, hcx]
      simp
    · rw [if_neg hcx, hfreq, if_neg (by simpa using hcx)]
      simp
  by_cases hlt : st.maxFreq < freqGet st.frequency (replaceNWithD ic) + 1
  · have hmaxeq : (iconStep st ic).maxFreq =
        freqGet st.frequency (replaceNWithD ic) + 1 := by
      simp only [iconStep]
      rw [if_pos hlt]
    have hmosteq : (iconStep st ic).mostFrequentIcon = replaceNWithD ic := by
      simp only [iconStep]
      rw [if_pos hlt]
    have hceq : seen.count (replaceNWithD ic) = maxIconCount seen := by
      have h1 := count_le_maxIconCount seen (replaceNWithD ic)
      rw [hfreq] at hlt
      rw [hmax] at hlt
      omega
    have hM : maxIconCount (seen ++ [replaceNWithD ic]) =
        seen.count (replaceNWithD ic) + 1 := by
      rw [maxIconCount_append_singleton, hceq,
        Nat.max_eq_right (Nat.le_succ _)]
    refine ⟨hcount1, ?_, ?_⟩
    · rw [hmaxeq, hM, hfreq]
    · rw [hM, hmosteq]
      have hnone : findAttain (seen.count (replaceNWithD ic) + 1) [] seen =
          none := by
        apply findAttain_none_of_lt
        intro x
        rw [List.nil_append]
        have := count_le_maxIconCount seen x
        omega
      rw [findAttain_append_none _ seen [] [replaceNWithD ic] hnone]
      simp only [List.nil_append]
      rw [findAttain]
      rw [if_pos (by rw [List.count_append, List.count_singleton]; simp)]
  · have hmaxeq : (iconStep st ic).maxFreq = st.maxFreq := by
      simp only [iconStep]
      rw [if_neg hlt]
    have hmosteq : (iconStep st ic).mostFrequentIcon =
        st.mostFrequentIcon := by
      simp only [iconStep]
      rw [if_neg hlt]
    have hle : freqGet st.frequency (replaceNWithD ic) + 1 ≤ st.maxFreq :=
      Nat.not_lt.mp hlt
    have hseen_ne : seen ≠ [] := by
      intro h0
      rw [h0] at hmax
      have : st.maxFreq = 0 := hmax
      omega
    have hatt' := hatt.resolve_left hseen_ne
    have hM : maxIconCount (seen ++ [replaceNWithD ic]) =
        maxIconCount seen := by
      rw [maxIconCount_append_singleton]
      refine Nat.max_eq_left ?_
      rw [hfreq, hmax] at hle
      exact hle
    refine ⟨hcount1, ?_, ?_⟩
    · rw [hmaxeq, hM, hmax]
    · rw [hM, hmosteq]
      exact findAttain_append_some _ seen [] [replaceNWithD ic] _ hatt'

theorem iconFold_inv :
    ∀ (rest seen : List String) (st : IconFold),
      (∀ x, freqGet st.frequency x = seen.count x) →
      st.maxFreq = maxIconCount seen →
      (seen = [] ∨ findAttain (maxIconCount seen) [] seen =
        some st.mostFrequentIcon) →
      (∀ x, freqGet (List.foldl iconStep st rest).frequency x =
        (seen ++ rest.map replaceNWithD).count x) ∧
      (List.foldl iconStep st rest).maxFreq =
        maxIconCount (seen ++ rest.map replaceNWithD) ∧
      (seen ++ rest.map replaceNWithD = [] ∨
        findAttain (maxIconCount (seen ++ rest.map replaceNWithD)) []
          (seen ++ rest.map replaceNWithD) =
        some (List.foldl iconStep st rest).mostFrequentIcon)
  | [], seen, st, h1, h2, h3 => by
    simp only [List.foldl_nil, List.map_nil, List.append_nil]
    exact ⟨h1, h2, h3⟩
  | ic :: rest', seen, st, h1, h2, h3 => by
    obtain ⟨g1, g2, g3⟩ := iconStep_inv seen st ic h1 h2 h3
    have ih := iconFold_inv rest' (seen ++ [replaceNWithD ic])
      (iconStep st ic) g1 g2 (Or.inr g3)
    rw [List.foldl_cons]
    rw [show seen ++ (ic :: rest').map replaceNWithD =
      (seen ++ [replaceNWithD ic]) ++ rest'.map replaceNWithD by simp]
    exact ih

/-- Claim C6: for a nonempty list of icon codes, the representative icon
of `getMostFrequentIcon` is exactly the night-folded code that first
attains the maximum count, and its count among the folded codes is
maximal. -/
theorem getMostFrequentIcon_spec (icons : List String)
    (h : icons ≠ []) :
    getMostFrequentIcon icons =
      firstMaxAttainer (icons.map replaceNWithD) ∧
    (icons.map replaceNWithD).count (getMostFrequentIcon icons) =
      maxIconCount (icons.map replaceNWithD) := by
  cases icons with
  | nil => exact absurd rfl h
  | cons first rest =>
    obtain ⟨g1, g2, g3⟩ := iconFold_inv (first :: rest) [] ⟨[], 0, first⟩
      (fun x => rfl) rfl (Or.inl rfl)
    simp only [List.nil_append] at g1 g2 g3
    have hne : (first :: rest).map replaceNWithD ≠ [] := by simp
    have g3' := g3.resolve_left hne
    rw [getMostFrequentIcon]
    constructor
    · rw [firstMaxAttainer, g3']
      rfl
    · have hub := count_le_maxIconCount ((first :: rest).map replaceNWithD)
        ((List.foldl iconStep ⟨[], 0, first⟩
          (first :: rest)).mostFrequentIcon)
      have hlb := count_ge_of_findAttain _ _ _ _ g3'
      rw [List.nil_append] at hlb
      omega

/-- Witness for C6 at the claim's concrete bucket
`['01n','01n','02d']`, which resolves to `'01d'`. -/
theorem getMostFrequentIcon_spec_witness :
    (getMostFrequentIcon ["01n", "01n", "02d"] =
      firstMaxAttainer (["01n", "01n", "02d"].map replaceNWithD) ∧
      (["01n", "01n", "02d"].map replaceNWithD).count
        (getMostFrequentIcon ["01n", "01n", "02d"]) =
        maxIconCount (["01n", "01n", "02d"].map replaceNWithD)) ∧
    getMostFrequentIcon ["01n", "01n", "02d"] = "01d" :=
  ⟨getMostFrequentIcon_spec ["01n", "01n", "02d"] (by decide), by decide⟩

/-! ### Combined weather route theorems (C1) -/

theorem weatherGET_cache_hit (c : String) (unitsParam : Option String)
    (env : WeatherEnv) (cache : WeatherCacheStore) (now : Int)
    (up : WeatherUpstream) (e : WeatherCacheEntry) (hc : c ≠ "")
    (hhit : cache (weatherCacheKey c (resolveUnits unitsParam)) = some e)
    (hfresh : serverEntryFresh e.timestamp WEATHER_CACHE_DURATION now =
      true) :
    weatherGET (some c) unitsParam env cache now up =
      (.jsonCombined 200 e.data, cache, []) := by
  simp only [weatherGET, if_neg hc, hhit, hfresh, if_true]

/-- Claim C1: after a successful fetch at `t0` (server cache miss, both
upstream endpoints answering 200), the handler stores the combined
payload with timestamp `t0` while performing the two upstream calls; a
second request with the same city and units at any `t1` with
`t1 - t0 < CACHE_DURATION` returns exactly the stored payload, leaves
the cache unchanged, and performs no upstream HTTP call. -/
theorem weather_cached_second_request (c : String)
    (unitsParam : Option String) (k : String) (env : WeatherEnv)
    (cache : WeatherCacheStore) (t0 t1 : Int) (up up' : WeatherUpstream)
    (cw : CurrentWeatherData) (raw : RawForecastResponse)
    (hc : c ≠ "") (hkey : env.apiKey = some k) (hk1 : k ≠ "")
    (hk2 : k ≠ "your_openweathermap_api_key")
    (hmiss : ∀ e, cache (weatherCacheKey c (resolveUnits unitsParam)) =
      some e →
      serverEntryFresh e.timestamp WEATHER_CACHE_DURATION t0 = false)
    (hcw : up.current = .success cw)
    (hraw : up.forecastResp = .success raw)
    (hfresh : serverEntryFresh t0 WEATHER_CACHE_DURATION t1 = true) :
    weatherGET (some c) unitsParam env cache t0 up =
      (.jsonCombined 200 (mkCombined cw raw),
        fun key =>
          if key = weatherCacheKey c (resolveUnits unitsParam) then
            some ⟨mkCombined cw raw, t0⟩
          else cache key,
        [.currentWeather, .forecastFetch]) ∧
    weatherGET (some c) unitsParam env
        (fun key =>
          if key = weatherCacheKey c (resolveUnits unitsParam) then
            some ⟨mkCombined cw raw, t0⟩
          else cache key) t1 up' =
      (.jsonCombined 200 (mkCombined cw raw),
        fun key =>
          if key = weatherCacheKey c (resolveUnits unitsParam) then
            some ⟨mkCombined cw raw, t0⟩
          else cache key,
        []) := by
  have hnotor : ¬(k = "" ∨ k = "your_openweathermap_api_key") :=
    not_or.mpr ⟨hk1, hk2⟩
  have hfetch : weatherFetch (weatherCacheKey c (resolveUnits unitsParam))
      env cache t0 up =
      (.jsonCombined 200 (mkCombined cw raw),
        fun key =>
          if key = weatherCacheKey c (resolveUnits unitsParam) then
            some ⟨mkCombined cw raw, t0⟩
          else cache key,
        [.currentWeather, .forecastFetch]) := by
    simp only [weatherFetch, hkey, hcw, hraw, if_neg hnotor]
  constructor
  · simp only [weatherGET, if_neg hc]
    cases hcache : cache (weatherCacheKey c (resolveUnits unitsParam)) with
    | none =>
      simp only [hcache]
      exact hfetch
    | some e =>
      have hstale := hmiss e hcache
      simp only [hcache]
      rw [if_neg (by simp [hstale])]
      exact hfetch
  · exact weatherGET_cache_hit c unitsParam env _ t1 up'
      ⟨mkCombined cw raw, t0⟩ hc (by simp) hfresh

/-- Witness for C1: a first request for London at time 0 against a mocked
upstream performs the two upstream calls and stores the payload; the
second request at time 1 answers from the cache with no upstream call. -/
theorem weather_cached_second_request_witness :
    weatherGET (some "London") none demoWeatherEnv emptyWeatherCache 0
        demoWeatherUpstream =
      (.jsonCombined 200 (mkCombined demoCurrentWeather demoRawForecast),
        fun key =>
          if key = weatherCacheKey "London" (resolveUnits none) then
            some ⟨mkCombined demoCurrentWeather demoRawForecast, 0⟩
          else emptyWeatherCache key,
        [.currentWeather, .forecastFetch]) ∧
    weatherGET (some "London") none demoWeatherEnv
        (fun key =>
          if key = weatherCacheKey "London" (resolveUnits none) then
            some ⟨mkCombined demoCurrentWeather demoRawForecast, 0⟩
          else emptyWeatherCache key) 1 demoWeatherUpstream =
      (.jsonCombined 200 (mkCombined demoCurrentWeather demoRawForecast),
        fun key =>
          if key = weatherCacheKey "London" (resolveUnits none) then
            some ⟨mkCombined demoCurrentWeather demoRawForecast, 0⟩
          else emptyWeatherCache key,
        []) :=
  weather_cached_second_request "London" none "demo-key" demoWeatherEnv
    emptyWeatherCache 0 1 demoWeatherUpstream demoWeatherUpstream
    demoCurrentWeather demoRawForecast (by decide) rfl (by decide)
    (by decide) (fun e h => by simp [emptyWeatherCache] at h) rfl rfl
    (by decide)

/-! ### Repository normalization (C4) -/

/-- Claim C4, evaluated at the failing input: with upstream
`description`, `homepage`, `language` and `license` all `null`, the
details and trending mappings correctly normalize `description` to
`''`, `language` to `''` and `license` to `undefined` — but both emit
`homepage = null`, violating the claimed null-free contract (and the
declared `homepage?: string` type); only the search mapping normalizes
`homepage` to `''`. -/
theorem repo_normalization_null_homepage :
    (getRepoDetailsMap nullFieldsRepo).description = "" ∧
    (getRepoDetailsMap nullFieldsRepo).language = "" ∧
    (getRepoDetailsMap nullFieldsRepo).license = none ∧
    (getRepoDetailsMap nullFieldsRepo).homepage = JsNullableString.jsNull ∧
    (fetchTrendingReposMap nullFieldsRepo).homepage =
      JsNullableString.jsNull ∧
    (searchRepositoriesMap nullFieldsRepo).description = "" ∧
    (searchRepositoriesMap nullFieldsRepo).homepage =
      JsNullableString.jsStr "" := by
  decide

/-! ### AI-insight mode selection (C7) -/

/-- Claim C7: whenever `project` and `weatherData` are both truthy in the
request body, no mode matches and the handler answers 400 with the
invalid-combination error, before any upstream AI call
(`GeminiOutcome.response` is produced strictly before the axios call). -/
theorem gemini_both_project_and_weather_is_400 (body : GeminiBody)
    (env : GeminiEnv) (hp : body.project.isSome = true)
    (hw : body.weatherData.isSome = true) :
    geminiPOST body env =
      .response 400
        "Invalid request body. Provide \x7bproject\x7d, \x7bweatherData, projectData\x7d, or just \x7bweatherData\x7d." := by
  obtain ⟨p, hp'⟩ := Option.isSome_iff_exists.mp hp
  obtain ⟨w, hw'⟩ := Option.isSome_iff_exists.mp hw
  cases hpd : body.projectData with
  | none => simp [geminiPOST, hp', hw', hpd]
  | some pd => simp [geminiPOST, hp', hw', hpd]

/-- Witness for C7 at a concrete ambiguous body. -/
theorem gemini_both_project_and_weather_is_400_witness :
    geminiPOST demoGeminiBody ⟨some "key", some "https://ai"⟩ =
      .response 400
        "Invalid request body. Provide \x7bproject\x7d, \x7bweatherData, projectData\x7d, or just \x7bweatherData\x7d." :=
  gemini_both_project_and_weather_is_400 demoGeminiBody
    ⟨some "key", some "https://ai"⟩ (by decide) (by decide)

/-! ### Issues fan-out tolerance (C8) -/

/-- Claim C8: when the upstream issues fetch yields a non-200 status or
fails, `getBeginnerFriendlyIssues` returns `[]`, and (on a cache miss)
`getRepositoryIssues` returns `[]` leaving the cache unchanged, so the
issues route answers with a 200 response carrying an empty issues array,
not an error response. -/
theorem issues_upstream_failure_empty (repo : String)
    (cache : IssueCacheStore) (now : Int) (upstream : IssuesFetchResult)
    (hrepo : repo ≠ "")
    (hmiss : ∀ e, cache ("issues_" ++ repo) = some e →
      serverEntryFresh e.timestamp ISSUES_CACHE_DURATION now = false)
    (hfail : ∀ d, upstream ≠ .ok 200 d) :
    getBeginnerFriendlyIssues upstream = [] ∧
    getRepositoryIssues repo cache now upstream = ([], cache) ∧
    issuesGET (some repo) cache now upstream = (.issuesOk [], cache) := by
  have hfetch : getRepositoryIssuesFetch ("issues_" ++ repo) cache now
      upstream = ([], cache) := by
    cases upstream with
    | ok status data =>
      have hstatus : status ≠ 200 := fun h => hfail data (by rw [h])
      simp [getRepositoryIssuesFetch, hstatus]
    | failure msg => rfl
  have h1 : getBeginnerFriendlyIssues upstream = [] := by
    cases upstream with
    | ok status data =>
      have hstatus : status ≠ 200 := fun h => hfail data (by rw [h])
      simp [getBeginnerFriendlyIssues, hstatus]
    | failure msg => rfl
  have h2 : getRepositoryIssues repo cache now upstream = ([], cache) := by
    simp only [getRepositoryIssues]
    cases hcache : cache ("issues_" ++ repo) with
    | none =>
      simp only [hcache]
      exact hfetch
    | some e =>
      have hstale := hmiss e hcache
      simp only [hcache]
      rw [if_neg (by simp [hstale])]
      exact hfetch
  refine ⟨h1, h2, ?_⟩
  simp only [issuesGET, if_neg hrepo, h2]

/-- Witness for C8: an upstream 403 yields the empty issues array and a
200 route response. -/
theorem issues_upstream_failure_empty_witness :
    getBeginnerFriendlyIssues (.ok 403 []) = [] ∧
    getRepositoryIssues "facebook/react" emptyIssueCache 0 (.ok 403 []) =
      ([], emptyIssueCache) ∧
    issuesGET (some "facebook/react") emptyIssueCache 0 (.ok 403 []) =
      (.issuesOk [], emptyIssueCache) :=
  issues_upstream_failure_empty "facebook/react" emptyIssueCache 0
    (.ok 403 []) (by decide)
    (fun e h => by simp [emptyIssueCache] at h)
    (fun d h => by simp at h)

end DevForecast
